import Mathlib

/-!
Verification of the opencode-flow pipeline runner.

Shallow embedding of the TypeScript sources:
- `src/types.ts`         : the data model (`RunState`, `PipelineConfig`, ...)
- `src/lib/worktree.ts`  : `getBranchName`, `getWorktreePath`, `createWorktree`
- `src/lib/template.ts`  : `substituteVariables` (the `\x7b\x7bname\x7d\x7d` engine)
- `src/lib/state.ts`     : `createRunState`, `loadRunState`
- `src/lib/runner.ts`    : `runAgent`, `runPipeline`
- `src/commands/run.ts`  : the multi-story loop and the process exit code

Filesystem, subprocess and clock effects are modelled by explicit oracles
(`World`), and every `saveRunState` call is recorded in an effect trace, so
persisted intermediate states are observable.
-/

namespace OpencodeFlow

/-! ## Data model (src/types.ts) -/

/-- `RunStatus` from src/types.ts. -/
inductive RunStatus where
  | pending
  | in_progress
  | completed
  | failed
deriving DecidableEq, Repr

/-- `RunState` from src/types.ts: the persisted per-story record. -/
structure RunState where
  storyId : String
  branch : String
  worktreePath : String
  status : RunStatus
  currentAgent : Option String
  completedAgents : List String
  startedAt : String
  updatedAt : String
  error : Option String
deriving DecidableEq, Repr

/-- `AgentConfig` from src/types.ts. -/
structure AgentConfig where
  name : String
  promptPath : String
  model : Option String := none
  agent : Option String := none
deriving DecidableEq, Repr

/-- `Settings` from src/types.ts. -/
structure Settings where
  defaultModel : Option String := none
  defaultAgent : Option String := none
deriving DecidableEq, Repr

/-- `PipelineConfig` from src/types.ts. -/
structure PipelineConfig where
  settings : Option Settings := none
  agents : List AgentConfig
deriving DecidableEq, Repr

/-- Status part of `PipelineResult` from src/types.ts. -/
inductive PRStatus where
  | completed
  | failed
  | skipped
deriving DecidableEq, Repr

/-- `PipelineResult` from src/types.ts. -/
structure PipelineResult where
  storyId : String
  status : PRStatus
  failedAgent : Option String := none
  skipReason : Option String := none
  error : Option String := none
deriving DecidableEq, Repr

/-- `AgentResult` from src/lib/runner.ts. -/
structure AgentResult where
  success : Bool
  exitCode : Int
deriving DecidableEq, Repr

/-- The named error classes thrown by the sources (`RunnerError` in
runner.ts, `StateError` in state.ts); each carries its message. -/
inductive AppError where
  | runnerError (msg : String)
  | stateError (msg : String)
deriving DecidableEq, Repr

/-- `TemplateVariables` from src/types.ts: the fixed four-variable record. -/
structure TemplateVariables where
  storyId : String
  branch : String
  worktreePath : String
  agentName : String
deriving DecidableEq, Repr

/-- `SubstitutionResult` from src/lib/template.ts. -/
structure SubstitutionResult where
  result : String
  missingVariables : List String
deriving DecidableEq, Repr

/-! ## Workspace manager (src/lib/worktree.ts) -/

/-- `getBranchName` from worktree.ts: the branch is `flow/` + story id. -/
def getBranchName (storyId : String) : String := "flow/" ++ storyId

/-- Node `path.resolve(base, seg)` for an absolute `base` (a component list)
and a relative single-component `seg`: it appends the component. -/
def resolvePath (base : List String) (seg : String) : List String := base ++ [seg]

/-- `getWorktreePath` from worktree.ts: `resolve(gitRoot, storyId)`. -/
def getWorktreePath (gitRoot : List String) (storyId : String) : List String :=
  resolvePath gitRoot storyId

/-- `createWorktree` from worktree.ts.  The existence check and the
`git worktree add` run are oracles (`alreadyExists`, `gitAdd`); on success
the computed worktree path is returned. -/
def createWorktree (alreadyExists : Bool) (gitAdd : Except String Unit)
    (gitRoot : List String) (storyId : String) : Except String (List String) :=
  if alreadyExists then
    .error ("Worktree already exists: " ++ String.intercalate "/" (getWorktreePath gitRoot storyId))
  else
    match gitAdd with
    | .ok _ => .ok (getWorktreePath gitRoot storyId)
    | .error e => .error e

/-! ## Run-state store (src/lib/state.ts) -/

/-- `createRunState` from state.ts: fresh `pending` record, both timestamps
set to the same current time. -/
def createRunState (storyId branch worktreePath : String) (now : String) : RunState :=
  { storyId := storyId
    branch := branch
    worktreePath := worktreePath
    status := .pending
    currentAgent := none
    completedAgents := []
    startedAt := now
    updatedAt := now
    error := none }

/-- `loadRunState` from state.ts.  `file` is the stored raw content when the
state file exists (`existsSync`), `parse` models `JSON.parse` returning a
`RunState` or failing.  A missing file yields the explicit absent signal
`none`; a present but unparseable file raises a `StateError`. -/
def loadRunState (file : Option String) (parse : String → Option RunState)
    (storyId : String) : Except AppError (Option RunState) :=
  match file with
  | none => .ok none
  | some content =>
    match parse content with
    | some st => .ok (some st)
    | none => .error (.stateError ("Failed to load run state for " ++ storyId))

/-! ## Variable substitution engine (src/lib/template.ts) -/

/-- A JS regex word character (the class `[A-Za-z0-9_]`). -/
def isWordChar (c : Char) : Bool := c.isAlpha || c.isDigit || c == '_'

/-- `new Map(Object.entries(variables)).get(name)` for the fixed
four-field `TemplateVariables` record. -/
def lookupVar (v : TemplateVariables) (name : String) : Option String :=
  if name = "storyId" then some v.storyId
  else if name = "branch" then some v.branch
  else if name = "worktreePath" then some v.worktreePath
  else if name = "agentName" then some v.agentName
  else none

/-- Dropping a prefix never lengthens a list. -/
theorem length_dropWhile_le_self (p : Char → Bool) :
    ∀ l : List Char, (l.dropWhile p).length ≤ l.length := by
  intro l
  induction l with
  | nil => simp [List.dropWhile]
  | cons c cs ih =>
    simp only [List.dropWhile]
    by_cases h : p c
    · simp only [h]
      exact Nat.le_trans ih (Nat.le_succ _)
    · simp [h]

/-- The single left-to-right pass of
`template.replace(TEMPLATE_VAR_PATTERN, cb)` from template.ts with
`TEMPLATE_VAR_PATTERN` the global double-braced-word regex.  At each
position: if a full placeholder (two opening braces, a non-empty word, two
closing braces) matches, the callback runs — a known variable is replaced
by its value, an unknown placeholder is emitted unchanged and its name is
pushed onto the missing accumulator unless already present (the
`missingVariables.includes` check in the source); otherwise one character
is emitted and scanning resumes at the next position, exactly as the regex
engine advances after a failed match. -/
def substAux (v : TemplateVariables) : List Char → List String → List Char × List String
  | [], acc => ([], acc)
  | '{' :: '{' :: rest, acc =>
    match rest.takeWhile isWordChar, hd : rest.dropWhile isWordChar with
    | w :: ws, '}' :: '}' :: rest3 =>
      match lookupVar v (String.mk (w :: ws)) with
      | some val =>
        let p := substAux v rest3 acc
        (val.toList ++ p.1, p.2)
      | none =>
        let acc2 := if String.mk (w :: ws) ∈ acc then acc else acc ++ [String.mk (w :: ws)]
        let p := substAux v rest3 acc2
        ('{' :: '{' :: (w :: ws) ++ '}' :: '}' :: p.1, p.2)
    | _, _ =>
      let p := substAux v ('{' :: rest) acc
      ('{' :: p.1, p.2)
  | c :: cs, acc =>
    let p := substAux v cs acc
    (c :: p.1, p.2)
termination_by l _ => l.length
decreasing_by
  · have h1 : (rest.dropWhile isWordChar).length ≤ rest.length :=
      length_dropWhile_le_self isWordChar rest
    rw [hd] at h1
    simp only [List.length_cons] at *
    omega
  · have h1 : (rest.dropWhile isWordChar).length ≤ rest.length :=
      length_dropWhile_le_self isWordChar rest
    rw [hd] at h1
    simp only [List.length_cons] at *
    omega
  · simp only [List.length_cons]
    omega
  · simp only [List.length_cons]
    omega

/-- `substituteVariables` from template.ts: run the replace pass over the
template's characters with an empty missing accumulator. -/
def substituteVariables (template : String) (v : TemplateVariables) : SubstitutionResult :=
  let p := substAux v template.toList []
  { result := String.mk p.1, missingVariables := p.2 }

/-- A piece of a template: a literal character or a well-formed placeholder. -/
inductive Tok where
  | text (c : Char)
  | ph (name : String)
deriving DecidableEq, Repr

/-- Modelled from the spec: the decomposition of a template into literal
characters and well-formed double-braced placeholders (the spec's
"placeholder pattern (double-braced alphanumeric/underscore identifier)";
malformed syntax is never matched and passes through untouched). -/
def tokenizeAux : List Char → List Tok
  | [] => []
  | '{' :: '{' :: rest =>
    match rest.takeWhile isWordChar, hd : rest.dropWhile isWordChar with
    | w :: ws, '}' :: '}' :: rest3 => .ph (String.mk (w :: ws)) :: tokenizeAux rest3
    | _, _ => .text '{' :: tokenizeAux ('{' :: rest)
  | c :: cs => .text c :: tokenizeAux cs
termination_by l => l.length
decreasing_by
  · have h1 : (rest.dropWhile isWordChar).length ≤ rest.length :=
      length_dropWhile_le_self isWordChar rest
    rw [hd] at h1
    simp only [List.length_cons] at *
    omega
  · simp only [List.length_cons]
    omega
  · simp only [List.length_cons]
    omega

/-- The placeholder's own characters, byte-for-byte. -/
def phChars (name : String) : List Char := '{' :: '{' :: name.toList ++ '}' :: '}' :: []

/-- Modelled from the spec: a known placeholder renders as the variable's
value, an unknown placeholder renders byte-for-byte unchanged, a literal
character renders as itself. -/
def renderTok (v : TemplateVariables) : Tok → List Char
  | .text c => [c]
  | .ph name =>
    match lookupVar v name with
    | some val => val.toList
    | none => phChars name

/-- Render a token list in order. -/
def renderToks (v : TemplateVariables) : List Tok → List Char
  | [] => []
  | t :: ts => renderTok v t ++ renderToks v ts

/-- Append a name unless it is already present. -/
def pushIfNew (acc : List String) (name : String) : List String :=
  if name ∈ acc then acc else acc ++ [name]

/-- Modelled from the spec: the unknown placeholder names, one occurrence
per placeholder occurrence, in template order. -/
def unknownOccurrences (v : TemplateVariables) : List Tok → List String
  | [] => []
  | .text _ :: ts => unknownOccurrences v ts
  | .ph name :: ts =>
    match lookupVar v name with
    | some _ => unknownOccurrences v ts
    | none => name :: unknownOccurrences v ts

/-- Modelled from the spec: deduplication keeping the first occurrence of
each name, preserving first-seen order. -/
def firstSeenDedup (l : List String) : List String := l.foldl pushIfNew []

/-- One missing-list accumulation step per token. -/
def missStep (v : TemplateVariables) (acc : List String) : Tok → List String
  | .text _ => acc
  | .ph name =>
    match lookupVar v name with
    | some _ => acc
    | none => pushIfNew acc name

/-- Modelled from the spec: substitution described denotationally — the
template decomposes into tokens; known placeholders are replaced by their
values, unknown placeholders are left byte-for-byte unchanged, and the
missing list is the deduplicated first-seen-order list of the unknown
placeholder names. -/
def substituteSpec (template : String) (v : TemplateVariables) : SubstitutionResult :=
  { result := String.mk (renderToks v (tokenizeAux template.toList))
    missingVariables := firstSeenDedup (unknownOccurrences v (tokenizeAux template.toList)) }

/-! ## Runner (src/lib/runner.ts) -/

/-- `getEffectiveModel` from runner.ts. -/
def getEffectiveModel (agent : AgentConfig) (config : PipelineConfig) : Option String :=
  agent.model.orElse fun _ => (config.settings.bind fun s => s.defaultModel)

/-- `getEffectiveAgent` from runner.ts. -/
def getEffectiveAgent (agent : AgentConfig) (config : PipelineConfig) : Option String :=
  agent.agent.orElse fun _ => (config.settings.bind fun s => s.defaultAgent)

/-- The event that settles the promise in `runAgent` once `spawn` was
reached: either the subprocess `close` event carrying an exit code that may
be null (signal termination), or the `error` event (spawn failure). -/
inductive SpawnEvent where
  | close (code : Option Int)
  | errorEvent (msg : String)
deriving DecidableEq, Repr

/-- The two promise-resolution handlers in `runAgent` (runner.ts): `close`
maps a null code to 1 (`code ?? 1`) and succeeds exactly on 0; `error`
resolves with failure and exit code 1.  Both handlers resolve — neither
rejects. -/
def agentResultOfEvent : SpawnEvent → AgentResult
  | .close code =>
    { success := code.getD 1 == 0, exitCode := code.getD 1 }
  | .errorEvent _ => { success := false, exitCode := 1 }

/-- What the environment does for one `runAgent` call: either the prompt
file read fails (`readFile` throws, so `runAgent` throws a `RunnerError`
naming the agent), or the subprocess is spawned and the promise is settled
by an event. -/
inductive RunAgentSpec where
  | promptReadError (msg : String)
  | spawned (ev : SpawnEvent)
deriving DecidableEq, Repr

/-- `runAgent` from runner.ts, at the level of its observable outcome: a
failed prompt read throws a `RunnerError`; once spawned, the returned
promise always resolves with the `AgentResult` determined by the settling
event. -/
def runAgent (agentName : String) (spec : RunAgentSpec) : Except AppError AgentResult :=
  match spec with
  | .promptReadError msg =>
    .error (.runnerError ("Failed to read prompt file for agent " ++ agentName ++ ": " ++ msg))
  | .spawned ev => .ok (agentResultOfEvent ev)

/-- `spec` succeeded: the subprocess was spawned and the resulting
`AgentResult` reports success. -/
def specSucceeds : RunAgentSpec → Bool
  | .spawned ev => (agentResultOfEvent ev).success
  | .promptReadError _ => false

/-- The `AgentResult` a spawned spec resolves with, if any. -/
def specResult : RunAgentSpec → Option AgentResult
  | .spawned ev => some (agentResultOfEvent ev)
  | .promptReadError _ => none

/-- The environment one `runPipeline` call runs against: the two
idempotency-guard probes, the outcome of `createWorktree` (an error message
or the created worktree path), what each agent invocation (by position in
the loop) does, and the wall clock behind `new Date().toISOString()`. -/
structure World where
  runStateExists : Bool
  worktreeExists : Bool
  createWorktree : Except String String
  agentSpec : Nat → RunAgentSpec
  clock : Nat → String

/-- An observable side effect of `runPipeline`: a `createWorktree` call or
a `saveRunState` call with the state it persisted. -/
inductive Effect where
  | worktreeCreated
  | saveState (s : RunState)
deriving DecidableEq, Repr

/-- The states persisted by a trace, in order. -/
def savedStatesOf (tr : List Effect) : List RunState :=
  tr.filterMap fun e =>
    match e with
    | .saveState s => some s
    | .worktreeCreated => none

/-- The failure message `runPipeline` writes into the state's `error` field
and the result, naming the agent and its exit code (runner.ts). -/
def failMsg (agentName : String) (exitCode : Int) : String :=
  "Agent " ++ agentName ++ " failed with exit code " ++ toString exitCode

/-- The `for (const agent of config.agents)` loop of `runPipeline`
(runner.ts): per agent, persist the state with `currentAgent` set, run the
agent, and either stop with a failed state and result (non-zero exit),
propagate a thrown error, or append to `completedAgents`, persist and
continue; after the loop, persist the terminal completed state.  `i` is
the position in the loop, used to index the environment's per-invocation
behavior and clock. -/
def runAgentsLoop (w : World) (storyId : String) :
    List AgentConfig → Nat → RunState → Except AppError PipelineResult × List Effect
  | [], i, state =>
    (.ok { storyId := storyId, status := .completed },
     [.saveState { state with status := .completed, currentAgent := none,
                              updatedAt := w.clock (2 * i + 1) }])
  | agent :: rest, i, state =>
    let st1 : RunState :=
      { state with currentAgent := some agent.name, updatedAt := w.clock (2 * i + 1) }
    match runAgent agent.name (w.agentSpec i) with
    | .error e => (.error e, [.saveState st1])
    | .ok r =>
      if r.success then
        let st2 : RunState :=
          { st1 with completedAgents := st1.completedAgents ++ [agent.name],
                     updatedAt := w.clock (2 * i + 2) }
        let p := runAgentsLoop w storyId rest (i + 1) st2
        (p.1, .saveState st1 :: .saveState st2 :: p.2)
      else
        let msg := failMsg agent.name r.exitCode
        let stF : RunState :=
          { st1 with status := .failed, currentAgent := none, error := some msg,
                     updatedAt := w.clock (2 * i + 2) }
        (.ok { storyId := storyId, status := .failed,
               failedAgent := some agent.name, error := some msg },
         [.saveState st1, .saveState stF])

/-- `runPipeline` from runner.ts: the two idempotency guards in order
(run-state existence first, then worktree existence), worktree creation
with its failure caught and turned into a `failed` result, initial state
creation and persist, then the agent loop.  Returns the outcome (or the
uncaught thrown error) together with the effect trace. -/
def runPipeline (w : World) (storyId : String) (config : PipelineConfig) :
    Except AppError PipelineResult × List Effect :=
  if w.runStateExists then
    (.ok { storyId := storyId, status := .skipped, skipReason := some "run already exists" }, [])
  else if w.worktreeExists then
    (.ok { storyId := storyId, status := .skipped, skipReason := some "worktree already exists" },
     [])
  else
    match w.createWorktree with
    | .error e =>
      (.ok { storyId := storyId, status := .failed,
             error := some ("Failed to create worktree: " ++ e) },
       [.worktreeCreated])
    | .ok worktreePath =>
      let st0 : RunState :=
        { createRunState storyId (getBranchName storyId) worktreePath (w.clock 0) with
            status := .in_progress }
      let p := runAgentsLoop w storyId config.agents 0 st0
      (p.1, .worktreeCreated :: .saveState st0 :: p.2)

/-! ## Multi-story orchestrator (src/commands/run.ts) -/

/-- The per-story loop inside `runAction` (the run command): each story is
processed sequentially through `runPipeline` and its result collected; the
loop has no try/catch, so a thrown error propagates and ends the loop.
`env` gives the environment each story runs against. -/
def runActionLoop (env : String → World) (config : PipelineConfig) :
    List String → Except AppError (List PipelineResult)
  | [] => .ok []
  | storyId :: rest =>
    match (runPipeline (env storyId) storyId config).1 with
    | .error e => .error e
    | .ok r =>
      match runActionLoop env config rest with
      | .error e => .error e
      | .ok rs => .ok (r :: rs)

/-- The exit-code computation at the end of `runAction` (the run command):
`process.exit(hasFailed ? 1 : 0)` where `hasFailed` is whether some result
has status `failed`. -/
def runActionExitCode (results : List PipelineResult) : Nat :=
  if results.any fun r => r.status == .failed then 1 else 0

/-! ## Concrete instances used in closed statements -/

/-- A one-agent configuration. -/
def cfgOne : PipelineConfig :=
  { agents := [{ name := "build", promptPath := "./agents/build.md" }] }

/-- A two-agent configuration with distinct names. -/
def cfgTwo : PipelineConfig :=
  { agents := [{ name := "build", promptPath := "./agents/build.md" },
               { name := "test", promptPath := "./agents/test.md" }] }

/-- An environment where every agent subprocess exits 0. -/
def wAllOk : World :=
  { runStateExists := false
    worktreeExists := false
    createWorktree := .ok "/wt/S"
    agentSpec := fun _ => .spawned (.close (some 0))
    clock := fun _ => "t" }

/-- An environment where the first agent exits 0 and every later one exits 2. -/
def wFirstFail : World :=
  { wAllOk with
      createWorktree := .ok "/wt/DEV-1"
      agentSpec := fun i => if i == 0 then .spawned (.close (some 0)) else .spawned (.close (some 2)) }

/-- An environment where both a run state and a worktree already exist. -/
def wBothExist : World := { wAllOk with runStateExists := true, worktreeExists := true }

/-- An environment with no run state but an existing worktree. -/
def wWorktreeExists : World := { wAllOk with worktreeExists := true }

/-- An environment where `git worktree add` fails. -/
def wCreateFails : World := { wAllOk with createWorktree := .error "boom" }

/-- An environment where every prompt-file read throws. -/
def wPromptDies : World := { wAllOk with agentSpec := fun _ => .promptReadError "boom" }

/-- The state persisted right after agent `build` completes in a
`wFirstFail` run of `cfgTwo` for story `DEV-1`. -/
def stMidRun : RunState :=
  { storyId := "DEV-1", branch := "flow/DEV-1", worktreePath := "/wt/DEV-1",
    status := .in_progress, currentAgent := some "build", completedAgents := ["build"],
    startedAt := "t", updatedAt := "t", error := none }

/-- The terminal state persisted by a fully successful `cfgOne` run. -/
def stAllDone : RunState :=
  { storyId := "S", branch := "flow/S", worktreePath := "/wt/S",
    status := .completed, currentAgent := none, completedAgents := ["build"],
    startedAt := "t", updatedAt := "t", error := none }

/-- A `JSON.parse` model that always fails. -/
def parseNever : String → Option RunState := fun _ => none

/-- A `JSON.parse` model that always returns one fixed record. -/
def parseFixed : String → Option RunState :=
  fun _ => some (createRunState "A" "flow/A" "/wt/A" "t0")

/-! ## Lemmas: substitution engine -/

/-- Accumulating misses token by token is folding the unknown-occurrence
list with duplicate-free append. -/
theorem foldl_missStep_eq (v : TemplateVariables) (ts : List Tok) : ∀ acc,
    ts.foldl (missStep v) acc = (unknownOccurrences v ts).foldl pushIfNew acc := by
  induction ts with
  | nil => intro acc; simp [unknownOccurrences]
  | cons t ts ih =>
    intro acc
    cases t with
    | text c => simp [unknownOccurrences, missStep, ih]
    | ph name =>
      cases h : lookupVar v name with
      | some val => simp [unknownOccurrences, missStep, h, ih]
      | none => simp [unknownOccurrences, missStep, h, ih]

/-- Unfolding `substAux` at a position where a full placeholder matches. -/
theorem substAux_ph (v : TemplateVariables) (rest : List Char) (w : Char) (ws rest3 : List Char)
    (acc : List String)
    (htake : rest.takeWhile isWordChar = w :: ws)
    (hdrop : rest.dropWhile isWordChar = '}' :: '}' :: rest3) :
    substAux v ('{' :: '{' :: rest) acc =
      match lookupVar v (String.mk (w :: ws)) with
      | some val => (val.toList ++ (substAux v rest3 acc).1, (substAux v rest3 acc).2)
      | none =>
        ('{' :: '{' :: (w :: ws) ++ '}' :: '}' ::
            (substAux v rest3 (pushIfNew acc (String.mk (w :: ws)))).1,
         (substAux v rest3 (pushIfNew acc (String.mk (w :: ws)))).2) := by
  rw [substAux.eq_2]
  split
  · rename_i w' ws' rest3' htake' hdrop'
    rw [htake] at htake'
    rw [hdrop] at hdrop'
    cases htake'
    cases hdrop'
    rfl
  · rename_i hno
    exact (hno w ws rest3 htake hdrop).elim

/-- Unfolding `tokenizeAux` at a position where a full placeholder matches. -/
theorem tokenizeAux_ph (rest : List Char) (w : Char) (ws rest3 : List Char)
    (htake : rest.takeWhile isWordChar = w :: ws)
    (hdrop : rest.dropWhile isWordChar = '}' :: '}' :: rest3) :
    tokenizeAux ('{' :: '{' :: rest) = .ph (String.mk (w :: ws)) :: tokenizeAux rest3 := by
  rw [tokenizeAux.eq_2]
  split
  · rename_i w' ws' rest3' htake' hdrop'
    rw [htake] at htake'
    rw [hdrop] at hdrop'
    cases htake'
    cases hdrop'
    rfl
  · rename_i hno
    exact (hno w ws rest3 htake hdrop).elim

/-- Unfolding `substAux` when two opening braces are not followed by a full
placeholder: one character is emitted and the scan retries one position on. -/
theorem substAux_noph (v : TemplateVariables) (rest : List Char) (acc : List String)
    (hno : ∀ (w : Char) (ws rest3 : List Char),
      rest.takeWhile isWordChar = w :: ws →
      rest.dropWhile isWordChar = '}' :: '}' :: rest3 → False) :
    substAux v ('{' :: '{' :: rest) acc =
      ('{' :: (substAux v ('{' :: rest) acc).1, (substAux v ('{' :: rest) acc).2) := by
  rw [substAux.eq_2]
  split
  · rename_i w' ws' rest3' htake' hdrop'
    exact (hno w' ws' rest3' htake' hdrop').elim
  · rfl

/-- Unfolding `tokenizeAux` in the same no-placeholder situation. -/
theorem tokenizeAux_noph (rest : List Char)
    (hno : ∀ (w : Char) (ws rest3 : List Char),
      rest.takeWhile isWordChar = w :: ws →
      rest.dropWhile isWordChar = '}' :: '}' :: rest3 → False) :
    tokenizeAux ('{' :: '{' :: rest) = .text '{' :: tokenizeAux ('{' :: rest) := by
  rw [tokenizeAux.eq_2]
  split
  · rename_i w' ws' rest3' htake' hdrop'
    exact (hno w' ws' rest3' htake' hdrop').elim
  · rfl

/-- The replace pass computes, for every input and accumulator, the
token-level rendering and the token-level miss accumulation. -/
theorem substAux_eq_spec (v : TemplateVariables) (l : List Char) (acc : List String) :
    substAux v l acc = (renderToks v (tokenizeAux l), (tokenizeAux l).foldl (missStep v) acc) := by
  induction l, acc using substAux.induct v with
  | case1 acc =>
    rw [substAux.eq_1, tokenizeAux.eq_1]
    simp [renderToks]
  | case2 rest acc w ws rest3 hdrop htake val hlook ih =>
    rw [substAux_ph v rest w ws rest3 acc htake hdrop, tokenizeAux_ph rest w ws rest3 htake hdrop]
    simp only [hlook, renderToks, renderTok, missStep, List.foldl, ih]
  | case3 rest acc w ws rest3 hdrop htake hlook acc2 ih =>
    rw [substAux_ph v rest w ws rest3 acc htake hdrop, tokenizeAux_ph rest w ws rest3 htake hdrop]
    simp only [acc2, dite_eq_ite] at ih
    simp only [hlook, renderToks, renderTok, missStep, List.foldl, phChars, pushIfNew]
    simp [ih, String.toList]
  | case4 rest acc hno ih =>
    rw [substAux_noph v rest acc hno, tokenizeAux_noph rest hno]
    simp [renderToks, renderTok, missStep, ih]
  | case5 c cs acc hnb ih =>
    rw [substAux.eq_3 v acc c cs hnb, tokenizeAux.eq_3 c cs hnb]
    simp [renderToks, renderTok, missStep, ih]

/-! ## Lemmas: runner -/

@[simp] theorem savedStatesOf_nil : savedStatesOf [] = [] := rfl

@[simp] theorem savedStatesOf_cons_save (s : RunState) (tr : List Effect) :
    savedStatesOf (.saveState s :: tr) = s :: savedStatesOf tr := rfl

@[simp] theorem savedStatesOf_cons_wt (tr : List Effect) :
    savedStatesOf (.worktreeCreated :: tr) = savedStatesOf tr := rfl

/-- Both promise handlers make `success` the exit-code-is-zero test. -/
theorem agentResult_success_eq (ev : SpawnEvent) :
    (agentResultOfEvent ev).success = ((agentResultOfEvent ev).exitCode == 0) := by
  cases ev with
  | close code => cases code <;> rfl
  | errorEvent m => rfl


/-- A spec that resolves with a failing result does not succeed. -/

theorem specSucceeds_false_of_result (s : RunAgentSpec) (r : AgentResult)
    (hres : specResult s = some r) (hr : r.success = false) :
    specSucceeds s = false := by
  cases s with
  | promptReadError m => rfl
  | spawned ev =>
    simp only [specResult, Option.some.injEq] at hres
    simp only [specSucceeds, hres, hr]


/-- If the first `k` agent invocations succeed and invocation `k` resolves
with a failing result, the agent loop stops at `k` with the failed result
naming agent `k`, and the last persisted state lists exactly the first `k`
agent names appended to the entry state's completed list, with
`currentAgent` null, status failed and the error message. -/

theorem runAgentsLoop_fail (w : World) (storyId : String) :
    ∀ (k : Nat) (agents : List AgentConfig) (i : Nat) (state : RunState) (r : AgentResult),
    k < agents.length →
    (∀ j, j < k → specSucceeds (w.agentSpec (i + j)) = true) →
    specResult (w.agentSpec (i + k)) = some r →
    r.success = false →
    (runAgentsLoop w storyId agents i state).1 = .ok
      { storyId := storyId, status := .failed,
        failedAgent := some ((agents.map fun a => a.name).getD k ""),
        error := some (failMsg ((agents.map fun a => a.name).getD k "") r.exitCode) } ∧
    (savedStatesOf (runAgentsLoop w storyId agents i state).2).getLast?.map
        (fun st => (st.completedAgents, st.currentAgent, st.status, st.error)) =
      some (state.completedAgents ++ (agents.map fun a => a.name).take k, none, RunStatus.failed,
            some (failMsg ((agents.map fun a => a.name).getD k "") r.exitCode)) := by
  intro k
  induction k with
  | zero =>
    intro agents i state r hk hsucc hfail hr
    cases agents with
    | nil => simp at hk
    | cons a rest =>
      simp only [Nat.add_zero] at hfail
      cases hspecc : w.agentSpec i with
      | promptReadError m =>
        rw [hspecc] at hfail
        simp [specResult] at hfail
      | spawned ev =>
        rw [hspecc] at hfail
        simp only [specResult, Option.some.injEq] at hfail
        subst hfail
        simp [runAgentsLoop, hspecc, runAgent, hr, savedStatesOf]
  | succ k ih =>
    intro agents i state r hk hsucc hfail hr
    cases agents with
    | nil => simp at hk
    | cons a rest =>
      have h0 : specSucceeds (w.agentSpec (i + 0)) = true := hsucc 0 (Nat.succ_pos k)
      simp only [Nat.add_zero] at h0
      cases hspecc : w.agentSpec i with
      | promptReadError m =>
        rw [hspecc] at h0
        simp [specSucceeds] at h0
      | spawned ev =>
        rw [hspecc] at h0
        simp only [specSucceeds] at h0
        have step := ih rest (i + 1)
          { state with currentAgent := some a.name,
                       completedAgents := state.completedAgents ++ [a.name],
                       updatedAt := w.clock (2 * i + 2) } r
          (by simpa using hk)
          (fun j hj => by
            have h1 := hsucc (j + 1) (by omega)
            have h2 : i + (j + 1) = i + 1 + j := by omega
            rw [h2] at h1
            exact h1)
          (by
            have h2 : i + (k + 1) = i + 1 + k := by omega
            rw [h2] at hfail
            exact hfail)
          hr
        obtain ⟨hres, hlast⟩ := step
        refine ⟨?_, ?_⟩
        · simp only [runAgentsLoop, hspecc, runAgent, h0, if_pos]
          simpa using hres
        · simp only [runAgentsLoop, hspecc, runAgent, h0, if_pos, savedStatesOf_cons_save]
          cases hnil : savedStatesOf (runAgentsLoop w storyId rest (i + 1)
              { state with currentAgent := some a.name,
                           completedAgents := state.completedAgents ++ [a.name],
                           updatedAt := w.clock (2 * i + 2) }).2 with
          | nil =>
            rw [hnil] at hlast
            simp at hlast
          | cons x xs =>
            rw [hnil] at hlast
            simp only [List.getLast?_cons_cons]
            simpa [List.append_assoc, List.take_succ_cons, List.getD_cons_succ] using hlast


/-- The agent loop never consults the environment beyond the first failing
invocation: two worlds with the same clock that agree on invocations
`i..i+k` produce identical loop outputs when invocation `k` fails after
`k` successes. -/

theorem runAgentsLoop_congr (w w' : World) (storyId : String) (hclock : w'.clock = w.clock) :
    ∀ (k : Nat) (agents : List AgentConfig) (i : Nat) (state : RunState),
    (∀ j, j ≤ k → w'.agentSpec (i + j) = w.agentSpec (i + j)) →
    (∀ j, j < k → specSucceeds (w.agentSpec (i + j)) = true) →
    specSucceeds (w.agentSpec (i + k)) = false →
    runAgentsLoop w' storyId agents i state = runAgentsLoop w storyId agents i state := by
  intro k
  induction k with
  | zero =>
    intro agents i state hagree hsucc hfailk
    cases agents with
    | nil => simp [runAgentsLoop, hclock]
    | cons a rest =>
      have hag : w'.agentSpec i = w.agentSpec i := by simpa using hagree 0 (Nat.le_refl 0)
      simp only [Nat.add_zero] at hfailk
      cases hspec : w.agentSpec i with
      | promptReadError m =>
        simp [runAgentsLoop, hag, hspec, runAgent, hclock]
      | spawned ev =>
        rw [hspec] at hfailk
        simp only [specSucceeds] at hfailk
        simp [runAgentsLoop, hag, hspec, runAgent, hclock, hfailk]
  | succ k ih =>
    intro agents i state hagree hsucc hfailk
    cases agents with
    | nil => simp [runAgentsLoop, hclock]
    | cons a rest =>
      have hag : w'.agentSpec i = w.agentSpec i := by simpa using hagree 0 (Nat.zero_le _)
      have h0 : specSucceeds (w.agentSpec (i + 0)) = true := hsucc 0 (Nat.succ_pos k)
      simp only [Nat.add_zero] at h0
      cases hspec : w.agentSpec i with
      | promptReadError m =>
        rw [hspec] at h0
        simp [specSucceeds] at h0
      | spawned ev =>
        rw [hspec] at h0
        simp only [specSucceeds] at h0
        have hrec := ih rest (i + 1)
          { state with currentAgent := some a.name,
                       completedAgents := state.completedAgents ++ [a.name],
                       updatedAt := w.clock (2 * i + 2) }
          (fun j hj => by
            have h1 := hagree (j + 1) (by omega)
            have h2 : i + (j + 1) = i + 1 + j := by omega
            rw [h2] at h1
            exact h1)
          (fun j hj => by
            have h1 := hsucc (j + 1) (by omega)
            have h2 : i + (j + 1) = i + 1 + j := by omega
            rw [h2] at h1
            exact h1)
          (by
            have h2 : i + (k + 1) = i + 1 + k := by omega
            rw [h2] at hfailk
            exact hfailk)
        simp [runAgentsLoop, hag, hspec, runAgent, hclock, h0, hrec]


theorem prefix_facts (fullNames done rest2 : List String)
    (hnodup : fullNames.Nodup) (hfull : fullNames = done ++ rest2) :
    done.Nodup ∧ done = fullNames.take done.length := by
  constructor
  · rw [hfull] at hnodup
    exact hnodup.of_append_left
  · rw [hfull, List.take_left]


/-- Every state the agent loop persists has duplicate-free
`completedAgents` forming a take-prefix of the full configured name list,
and a non-null `currentAgent` is either not yet completed or the most
recently completed agent. -/

theorem runAgentsLoop_inv (w : World) (storyId : String) (fullNames : List String)
    (hnodup : fullNames.Nodup) :
    ∀ (agents : List AgentConfig) (i : Nat) (state : RunState),
    fullNames = state.completedAgents ++ agents.map (fun a => a.name) →
    ∀ st ∈ savedStatesOf (runAgentsLoop w storyId agents i state).2,
      st.completedAgents.Nodup ∧
      (∃ n, st.completedAgents = fullNames.take n) ∧
      (∀ a, st.currentAgent = some a →
        a ∉ st.completedAgents ∨ st.completedAgents.getLast? = some a) := by
  intro agents
  induction agents with
  | nil =>
    intro i state hfull st hst
    simp only [List.map_nil, List.append_nil] at hfull
    simp only [runAgentsLoop, savedStatesOf_cons_save, savedStatesOf_nil,
      List.mem_singleton] at hst
    subst hst
    obtain ⟨h1, h2⟩ := prefix_facts fullNames state.completedAgents [] hnodup (by simp [hfull])
    exact ⟨h1, ⟨state.completedAgents.length, h2⟩, fun a ha => by simp at ha⟩
  | cons a rest ih =>
    intro i state hfull st hst
    obtain ⟨hdnd, hdtake⟩ := prefix_facts fullNames state.completedAgents
      (a.name :: rest.map fun x => x.name) hnodup (by simpa using hfull)
    have hnotmem : a.name ∉ state.completedAgents := by
      rw [hfull] at hnodup
      have hdisj := List.disjoint_of_nodup_append hnodup
      intro hmem
      exact hdisj hmem (List.mem_cons_self _ _)
    obtain ⟨hdnd2, hdtake2⟩ := prefix_facts fullNames
      (state.completedAgents ++ [a.name]) (rest.map fun x => x.name) hnodup
      (by simpa [List.append_assoc] using hfull)
    cases hspec : w.agentSpec i with
    | promptReadError m =>
      simp only [runAgentsLoop, hspec, runAgent, savedStatesOf_cons_save, savedStatesOf_nil,
        List.mem_singleton] at hst
      subst hst
      refine ⟨hdnd, ⟨state.completedAgents.length, hdtake⟩, fun x hx => ?_⟩
      simp only [Option.some.injEq] at hx
      subst hx
      exact Or.inl hnotmem
    | spawned ev =>
      by_cases hsuc : (agentResultOfEvent ev).success
      · simp only [runAgentsLoop, hspec, runAgent, hsuc, if_true, savedStatesOf_cons_save,
          List.mem_cons] at hst
        rcases hst with hst | hst | hst
        · subst hst
          refine ⟨hdnd, ⟨state.completedAgents.length, hdtake⟩, fun x hx => ?_⟩
          simp only [Option.some.injEq] at hx
          subst hx
          exact Or.inl hnotmem
        · subst hst
          refine ⟨hdnd2, ⟨state.completedAgents.length + 1, by simpa using hdtake2⟩,
            fun x hx => ?_⟩
          simp only [Option.some.injEq] at hx
          subst hx
          exact Or.inr (by simp)
        · exact ih (i + 1)
            { state with currentAgent := some a.name,
                         completedAgents := state.completedAgents ++ [a.name],
                         updatedAt := w.clock (2 * i + 2) }
            (by simpa [List.append_assoc] using hfull) st hst
      · simp only [Bool.not_eq_true] at hsuc
        simp only [runAgentsLoop, hspec, runAgent, hsuc, Bool.false_eq_true, if_false,
          savedStatesOf_cons_save, savedStatesOf_nil, List.mem_cons,
          List.mem_singleton, List.not_mem_nil, or_false] at hst
        rcases hst with hst | hst
        · subst hst
          refine ⟨hdnd, ⟨state.completedAgents.length, hdtake⟩, fun x hx => ?_⟩
          simp only [Option.some.injEq] at hx
          subst hx
          exact Or.inl hnotmem
        · subst hst
          exact ⟨hdnd, ⟨state.completedAgents.length, hdtake⟩, fun x hx => by simp at hx⟩

/-- Every `.ok` outcome of the agent loop carries the loop's story id. -/

theorem runAgentsLoop_storyId (w : World) (storyId : String) :
    ∀ (agents : List AgentConfig) (i : Nat) (state : RunState) (res : PipelineResult),
    (runAgentsLoop w storyId agents i state).1 = .ok res → res.storyId = storyId := by
  intro agents
  induction agents with
  | nil =>
    intro i state res h
    simp only [runAgentsLoop, Except.ok.injEq] at h
    rw [← h]
  | cons a rest ih =>
    intro i state res h
    cases hspec : w.agentSpec i with
    | promptReadError m =>
      simp [runAgentsLoop, hspec, runAgent] at h
    | spawned ev =>
      by_cases hsuc : (agentResultOfEvent ev).success
      · simp only [runAgentsLoop, hspec, runAgent, hsuc, if_true] at h
        exact ih (i + 1) _ res h
      · simp only [Bool.not_eq_true] at hsuc
        simp only [runAgentsLoop, hspec, runAgent, hsuc, Bool.false_eq_true, if_false,
          Except.ok.injEq] at h
        rw [← h]

/-- Every `.ok` outcome of `runPipeline` carries the pipeline's story id. -/

theorem runPipeline_storyId (w : World) (storyId : String) (config : PipelineConfig)
    (res : PipelineResult) :
    (runPipeline w storyId config).1 = .ok res → res.storyId = storyId := by
  intro h
  by_cases h1 : w.runStateExists
  · simp only [runPipeline, h1, if_true, Except.ok.injEq] at h
    rw [← h]
  · simp only [Bool.not_eq_true] at h1
    by_cases h2 : w.worktreeExists
    · simp only [runPipeline, h1, h2, Bool.false_eq_true, if_false, if_true,
        Except.ok.injEq] at h
      rw [← h]
    · simp only [Bool.not_eq_true] at h2
      cases hcw : w.createWorktree with
      | error e =>
        simp only [runPipeline, h1, h2, hcw, Bool.false_eq_true, if_false,
          Except.ok.injEq] at h
        rw [← h]
      | ok p =>
        simp only [runPipeline, h1, h2, hcw, Bool.false_eq_true, if_false] at h
        exact runAgentsLoop_storyId w storyId config.agents 0 _ res h

/-! ## Claims -/

/-- C1: if the idempotency guards pass, the worktree is created, the first
`k` agent invocations succeed and invocation `k` is the first to resolve
with a non-zero exit code, then `runPipeline` returns the `failed` outcome
naming agent `k` and its exit code, the last persisted run state lists
exactly the first `k` configured agent names in order with `currentAgent`
null, status `failed` and an error naming the agent and exit code, and
agents after index `k` are never invoked: any world agreeing with this one
up to invocation `k` produces the identical run. -/
theorem runPipeline_first_failure (w : World) (storyId : String) (config : PipelineConfig)
    (k : Nat) (r : AgentResult) (p : String)
    (hk : k < config.agents.length)
    (hstate : w.runStateExists = false)
    (hwt : w.worktreeExists = false)
    (hcw : w.createWorktree = .ok p)
    (hsucc : ∀ j, j < k → specSucceeds (w.agentSpec j) = true)
    (hfail : specResult (w.agentSpec k) = some r)
    (hr : r.exitCode ≠ 0) :
    (runPipeline w storyId config).1 = .ok
      { storyId := storyId, status := .failed,
        failedAgent := some ((config.agents.map fun a => a.name).getD k ""),
        error := some (failMsg ((config.agents.map fun a => a.name).getD k "") r.exitCode) } ∧
    (savedStatesOf (runPipeline w storyId config).2).getLast?.map
        (fun st => (st.completedAgents, st.currentAgent, st.status, st.error)) =
      some ((config.agents.map fun a => a.name).take k, none, RunStatus.failed,
            some (failMsg ((config.agents.map fun a => a.name).getD k "") r.exitCode)) ∧
    (∀ w' : World, w'.runStateExists = false → w'.worktreeExists = false →
      w'.createWorktree = w.createWorktree → w'.clock = w.clock →
      (∀ j, j ≤ k → w'.agentSpec j = w.agentSpec j) →
      runPipeline w' storyId config = runPipeline w storyId config) := by
  have hsf : r.success = false := by
    cases hspec : w.agentSpec k with
    | promptReadError m =>
      rw [hspec] at hfail
      simp [specResult] at hfail
    | spawned ev =>
      rw [hspec] at hfail
      simp only [specResult, Option.some.injEq] at hfail
      rw [← hfail, agentResult_success_eq, hfail]
      simp [hr]
  have loop := runAgentsLoop_fail w storyId k config.agents 0
    { createRunState storyId (getBranchName storyId) p (w.clock 0) with status := .in_progress }
    r hk (fun j hj => by simpa using hsucc j hj) (by simpa using hfail) hsf
  obtain ⟨hres, hlast⟩ := loop
  refine ⟨?_, ?_, ?_⟩
  · simp only [runPipeline, hstate, hwt, hcw, Bool.false_eq_true, if_false]
    exact hres
  · simp only [runPipeline, hstate, hwt, hcw, Bool.false_eq_true, if_false,
      savedStatesOf_cons_wt, savedStatesOf_cons_save]
    cases hnil : savedStatesOf (runAgentsLoop w storyId config.agents 0
        { createRunState storyId (getBranchName storyId) p (w.clock 0) with
            status := .in_progress }).2 with
    | nil =>
      rw [hnil] at hlast
      simp at hlast
    | cons x xs =>
      rw [hnil] at hlast
      simp only [List.getLast?_cons_cons]
      simpa [createRunState] using hlast
  · intro w' h1 h2 h3 h4 h5
    have hcongr := runAgentsLoop_congr w w' storyId h4 k config.agents 0
      { createRunState storyId (getBranchName storyId) p (w.clock 0) with status := .in_progress }
      (fun j hj => by simpa using h5 j hj)
      (fun j hj => by simpa using hsucc j hj)
      (by simpa using specSucceeds_false_of_result (w.agentSpec k) r hfail hsf)
    simp only [runPipeline, hstate, hwt, hcw, h1, h2, h3, h4, Bool.false_eq_true, if_false]
    rw [hcongr]

/-- Witness for C1: `cfgTwo` under `wFirstFail` (`build` exits 0, `test`
exits 2) fails naming `test` with exit code 2, and the final persisted
state lists exactly `["build"]`. -/
theorem runPipeline_first_failure_witness :
    (runPipeline wFirstFail "DEV-1" cfgTwo).1 = .ok
      { storyId := "DEV-1", status := .failed, failedAgent := some "test",
        error := some (failMsg "test" 2) } ∧
    (savedStatesOf (runPipeline wFirstFail "DEV-1" cfgTwo).2).getLast?.map
        (fun st => (st.completedAgents, st.currentAgent, st.status, st.error)) =
      some (["build"], none, RunStatus.failed, some (failMsg "test" 2)) := by
  have h := runPipeline_first_failure wFirstFail "DEV-1" cfgTwo 1
    { success := false, exitCode := 2 } "/wt/DEV-1"
    (by decide) rfl rfl rfl (by decide) (by decide) (by decide)
  exact ⟨h.1, h.2.1⟩

/-- C2: `runPipeline` checks run-state existence first and worktree
existence second; either guard firing yields the `skipped` outcome with its
distinguishing reason and an empty effect trace (no state saved, no
worktree created).  The first conjunct makes no assumption on the worktree
probe, so a run-state record wins whenever both guards would fire. -/
theorem runPipeline_idempotency_guards (w : World) (storyId : String) (config : PipelineConfig) :
    (w.runStateExists = true →
      runPipeline w storyId config =
        (.ok { storyId := storyId, status := .skipped,
               skipReason := some "run already exists" }, [])) ∧
    (w.runStateExists = false → w.worktreeExists = true →
      runPipeline w storyId config =
        (.ok { storyId := storyId, status := .skipped,
               skipReason := some "worktree already exists" }, [])) := by
  constructor
  · intro h
    simp [runPipeline, h]
  · intro h1 h2
    simp [runPipeline, h1, h2]

/-- Witness for C2: with both guards primed the reason is
"run already exists"; with only a worktree present it is
"worktree already exists"; both leave the effect trace empty. -/
theorem runPipeline_idempotency_guards_witness :
    runPipeline wBothExist "DEV-18" cfgOne =
      (.ok { storyId := "DEV-18", status := .skipped,
             skipReason := some "run already exists" }, []) ∧
    runPipeline wWorktreeExists "DEV-18" cfgOne =
      (.ok { storyId := "DEV-18", status := .skipped,
             skipReason := some "worktree already exists" }, []) :=
  ⟨(runPipeline_idempotency_guards wBothExist "DEV-18" cfgOne).1 rfl,
   (runPipeline_idempotency_guards wWorktreeExists "DEV-18" cfgOne).2 rfl rfl⟩

/-- C3 counterexample: a story skipped by guard A yields outcome `skipped`,
yet the run command's exit code is 0, not the 1 the claim requires for
skips. -/
theorem skip_exit_code_counterexample :
    runActionLoop (fun _ => wBothExist) cfgOne ["A"] =
      .ok [{ storyId := "A", status := .skipped,
             skipReason := some "run already exists" }] ∧
    runActionExitCode
      [{ storyId := "A", status := .skipped, skipReason := some "run already exists" }] = 0 :=
  ⟨rfl, rfl⟩

/-- C3 amended: the exit code is 1 exactly when some item's outcome is
`failed`, and 0 exactly when no item failed — skipped items do not affect
the exit code. -/
theorem runActionExitCode_iff_failed (results : List PipelineResult) :
    (runActionExitCode results = 1 ↔ ∃ r ∈ results, r.status = .failed) ∧
    (runActionExitCode results = 0 ↔ ∀ r ∈ results, r.status ≠ .failed) := by
  have hiff : (results.any fun r => r.status == .failed) = true ↔
      ∃ r ∈ results, r.status = .failed := by
    rw [List.any_eq_true]
    simp
  by_cases h : results.any fun r => r.status == .failed
  · obtain ⟨r, hr, hf⟩ := hiff.mp h
    refine ⟨iff_of_true ?_ ⟨r, hr, hf⟩, iff_of_false ?_ ?_⟩
    · simp [runActionExitCode, h]
    · simp [runActionExitCode, h]
    · intro hall
      exact hall r hr hf
  · have hfalse : (results.any fun r => r.status == .failed) = false := by
      simpa using h
    refine ⟨iff_of_false ?_ ?_, iff_of_true ?_ ?_⟩
    · simp [runActionExitCode, hfalse]
    · intro hc
      have h2 := hiff.mpr hc
      rw [hfalse] at h2
      exact Bool.false_ne_true h2
    · simp [runActionExitCode, hfalse]
    · intro r hr hf
      have h2 := hiff.mpr ⟨r, hr, hf⟩
      rw [hfalse] at h2
      exact Bool.false_ne_true h2

/-- C4 counterexample: with two stories and every prompt read throwing, the
orchestrator loop propagates the first story's `RunnerError` and ends: the
second story is never processed and no outcome list is produced. -/
theorem runActionLoop_abort_counterexample :
    runActionLoop (fun _ => wPromptDies) cfgOne ["A", "B"] =
      .error (.runnerError "Failed to read prompt file for agent build: boom") := rfl

/-- C4 amended: outcomes surfaced as result values (`completed`, `failed`,
`skipped`) are contained per item — whenever every story's pipeline
resolves to a result rather than throwing, the orchestrator processes the
whole list and records one outcome per identifier, in order; a thrown
exception (such as a prompt-file read failure) instead propagates and
aborts the loop over the remaining identifiers. -/
theorem runActionLoop_ok_results (env : String → World) (config : PipelineConfig) :
    ∀ stories : List String,
    (∀ s ∈ stories, ∃ res, (runPipeline (env s) s config).1 = .ok res) →
    ∃ rs, runActionLoop env config stories = .ok rs ∧
      rs.length = stories.length ∧
      ∀ n : Nat, (rs[n]?.map fun r => r.storyId) = stories[n]? := by
  intro stories
  induction stories with
  | nil =>
    intro h
    exact ⟨[], rfl, rfl, fun n => by simp⟩
  | cons s rest ih =>
    intro h
    obtain ⟨res, hres⟩ := h s (List.mem_cons_self _ _)
    obtain ⟨rs, hrs, hlen, hids⟩ := ih fun x hx => h x (List.mem_cons_of_mem _ hx)
    refine ⟨res :: rs, ?_, by simp [hlen], ?_⟩
    · cases hc : (runPipeline (env s) s config).1 with
      | error e =>
        rw [hc] at hres
        exact absurd hres (by simp)
      | ok r =>
        rw [hc] at hres
        cases hres
        simp [runActionLoop, hc, hrs]
    · intro n
      cases n with
      | zero => simpa using runPipeline_storyId (env s) s config res hres
      | succ m => simpa using hids m

/-- Witness for C4 amended: two stories whose agents fail with exit codes
(no exception) both get recorded outcomes. -/
theorem runActionLoop_ok_results_witness :
    ∃ rs, runActionLoop (fun _ => wFirstFail) cfgTwo ["A", "B"] = .ok rs ∧
      rs.length = (["A", "B"] : List String).length ∧
      ∀ n : Nat, (rs[n]?.map fun r => r.storyId) = (["A", "B"] : List String)[n]? :=
  runActionLoop_ok_results (fun _ => wFirstFail) cfgTwo ["A", "B"]
    (fun s _ => ⟨{ storyId := s, status := .failed, failedAgent := some "test",
                   error := some (failMsg "test" 2) }, rfl⟩)

/-- C5: when both guards pass and worktree creation fails, `runPipeline`
returns the `failed` outcome with a descriptive error and the effect trace
records only the creation attempt — no run state is ever persisted. -/
theorem worktree_failure_no_state (w : World) (storyId : String)
    (config : PipelineConfig) (e : String)
    (h1 : w.runStateExists = false) (h2 : w.worktreeExists = false)
    (h3 : w.createWorktree = .error e) :
    runPipeline w storyId config =
      (.ok { storyId := storyId, status := .failed,
             error := some ("Failed to create worktree: " ++ e) }, [.worktreeCreated]) ∧
    savedStatesOf (runPipeline w storyId config).2 = [] := by
  constructor <;> simp [runPipeline, h1, h2, h3, savedStatesOf]

/-- Witness for C5 at a concrete failing environment. -/
theorem worktree_failure_no_state_witness :
    runPipeline wCreateFails "DEV-9" cfgOne =
      (.ok { storyId := "DEV-9", status := .failed,
             error := some ("Failed to create worktree: " ++ "boom") }, [.worktreeCreated]) ∧
    savedStatesOf (runPipeline wCreateFails "DEV-9" cfgOne).2 = [] :=
  worktree_failure_no_state wCreateFails "DEV-9" cfgOne "boom" rfl rfl rfl

/-- C6 counterexample: for repository root `/home/repo` and identifier
`DEV-1`, the computed workspace path is `/home/repo/DEV-1` — a directory
inside the repository root — not the sibling `/home/DEV-1` that "same
parent directory as the repository root" requires. -/
theorem worktreePath_not_sibling_counterexample :
    getWorktreePath ["home", "repo"] "DEV-1" = ["home", "repo", "DEV-1"] ∧
    getWorktreePath ["home", "repo"] "DEV-1" ≠
      (["home", "repo"] : List String).dropLast ++ ["DEV-1"] := by
  constructor
  · rfl
  · decide

/-- C6 amended: the workspace path is deterministically the child of the
repository root named by the raw identifier (`resolve(gitRoot, storyId)`),
its parent directory is the repository root itself, the branch name is the
fixed prefix `flow/` plus the identifier, `getBranchName` is a pure
function of the identifier, and a successful `createWorktree` returns
exactly that computed path. -/
theorem worktreePath_child_of_root (gitRoot : List String) (storyId : String) :
    getWorktreePath gitRoot storyId = gitRoot ++ [storyId] ∧
    (getWorktreePath gitRoot storyId).dropLast = gitRoot ∧
    (getWorktreePath gitRoot storyId).getLast? = some storyId ∧
    getBranchName storyId = "flow/" ++ storyId ∧
    createWorktree false (.ok ()) gitRoot storyId = .ok (getWorktreePath gitRoot storyId) := by
  refine ⟨rfl, ?_, ?_, rfl, rfl⟩
  · simp [getWorktreePath, resolvePath]
  · simp [getWorktreePath, resolvePath]

/-- C7 counterexample: the state persisted right after agent `build`
succeeds still carries `currentAgent = "build"` although `"build"` is
already in `completedAgents`, and the terminal state of a fully successful
run has `completedAgents` equal to the whole configured sequence — not a
strict prefix. -/
theorem persisted_invariant_counterexample :
    (stMidRun ∈ savedStatesOf (runPipeline wFirstFail "DEV-1" cfgTwo).2 ∧
     stMidRun.currentAgent = some "build" ∧ "build" ∈ stMidRun.completedAgents) ∧
    ((savedStatesOf (runPipeline wAllOk "S" cfgOne).2).getLast? = some stAllDone ∧
     stAllDone.completedAgents = cfgOne.agents.map fun a => a.name) :=
  ⟨⟨by decide, rfl, by decide⟩, by decide, rfl⟩

/-- C7 amended: provided the configured agent names are distinct, every
state `runPipeline` persists has duplicate-free `completedAgents` forming a
(possibly complete) prefix of the configured name sequence, and a non-null
`currentAgent` names either an agent not yet completed (the one about to
run) or the most recently completed agent (the last entry of
`completedAgents`). -/
theorem runPipeline_persisted_invariant (w : World) (storyId : String) (config : PipelineConfig)
    (hnodup : (config.agents.map fun a => a.name).Nodup) :
    ∀ st ∈ savedStatesOf (runPipeline w storyId config).2,
      st.completedAgents.Nodup ∧
      (∃ n, st.completedAgents = (config.agents.map fun a => a.name).take n) ∧
      (∀ a, st.currentAgent = some a →
        a ∉ st.completedAgents ∨ st.completedAgents.getLast? = some a) := by
  intro st hst
  by_cases h1 : w.runStateExists
  · simp [runPipeline, h1, savedStatesOf] at hst
  · simp only [Bool.not_eq_true] at h1
    by_cases h2 : w.worktreeExists
    · simp [runPipeline, h1, h2, savedStatesOf] at hst
    · simp only [Bool.not_eq_true] at h2
      cases hcw : w.createWorktree with
      | error e => simp [runPipeline, h1, h2, hcw, savedStatesOf] at hst
      | ok p =>
        simp only [runPipeline, h1, h2, hcw, Bool.false_eq_true, if_false,
          savedStatesOf_cons_wt, savedStatesOf_cons_save, List.mem_cons] at hst
        rcases hst with hst | hst
        · subst hst
          exact ⟨List.nodup_nil, ⟨0, by simp [createRunState]⟩,
            fun a ha => by simp [createRunState] at ha⟩
        · exact runAgentsLoop_inv w storyId (config.agents.map fun a => a.name) hnodup
            config.agents 0
            { createRunState storyId (getBranchName storyId) p (w.clock 0) with
                status := .in_progress }
            (by simp [createRunState]) st hst

/-- Witness for C7 amended at the persisted mid-run state of a concrete
run. -/
theorem runPipeline_persisted_invariant_witness :
    stMidRun.completedAgents.Nodup ∧
    (∃ n, stMidRun.completedAgents = (cfgTwo.agents.map fun a => a.name).take n) ∧
    (∀ a, stMidRun.currentAgent = some a →
      a ∉ stMidRun.completedAgents ∨ stMidRun.completedAgents.getLast? = some a) :=
  runPipeline_persisted_invariant wFirstFail "DEV-1" cfgTwo (by decide) stMidRun (by decide)

/-- C8: `substituteVariables` equals its specification: the template
decomposes into literal characters and well-formed double-braced
placeholders; every placeholder naming a known variable is replaced by that
variable's value, every unknown placeholder is left byte-for-byte
unchanged, and the unknown names are returned deduplicated in first-seen
order, each distinct missing name exactly once however often it occurs; the
function is total and pure. -/
theorem substituteVariables_eq_spec (template : String) (v : TemplateVariables) :
    substituteVariables template v = substituteSpec template v := by
  simp only [substituteVariables, substituteSpec, substAux_eq_spec, foldl_missStep_eq,
    firstSeenDedup]

/-- C9: `loadRunState` returns the explicit absent signal when no record is
stored, raises the distinct `StateError` kind when stored data cannot be
parsed, and returns exactly the parsed record otherwise — never a partial
one. -/
theorem loadRunState_absent_or_corrupt (file : Option String)
    (parse : String → Option RunState) (storyId : String) :
    (file = none → loadRunState file parse storyId = .ok none) ∧
    (∀ c, file = some c → parse c = none →
      loadRunState file parse storyId =
        .error (.stateError ("Failed to load run state for " ++ storyId))) ∧
    (∀ c st, file = some c → parse c = some st →
      loadRunState file parse storyId = .ok (some st)) := by
  refine ⟨?_, ?_, ?_⟩
  · intro h
    subst h
    rfl
  · intro c hc hp
    subst hc
    simp [loadRunState, hp]
  · intro c st hc hp
    subst hc
    simp [loadRunState, hp]

/-- Witness for C9: a missing file, a corrupt file and a parseable file. -/
theorem loadRunState_absent_or_corrupt_witness :
    loadRunState none parseNever "A" = .ok none ∧
    loadRunState (some "junk") parseNever "A" =
      .error (.stateError ("Failed to load run state for " ++ "A")) ∧
    loadRunState (some "good") parseFixed "A" =
      .ok (some (createRunState "A" "flow/A" "/wt/A" "t0")) :=
  ⟨(loadRunState_absent_or_corrupt none parseNever "A").1 rfl,
   (loadRunState_absent_or_corrupt (some "junk") parseNever "A").2.1 "junk" rfl rfl,
   (loadRunState_absent_or_corrupt (some "good") parseFixed "A").2.2 "good"
     (createRunState "A" "flow/A" "/wt/A" "t0") rfl rfl⟩

/-- C10: a `close` event with a null exit code resolves as failure with
exit code 1 (the `code ?? 1` fallback), a `close` with code `c` resolves
with success exactly when `c = 0`, the `error` event resolves as failure
with exit code 1, and once spawned `runAgent` always resolves with an
`AgentResult` — both event paths return `.ok`, never an error. -/
theorem runAgent_resolution (agentName : String) :
    agentResultOfEvent (.close none) = { success := false, exitCode := 1 } ∧
    (∀ c : Int, agentResultOfEvent (.close (some c)) = { success := c == 0, exitCode := c }) ∧
    (∀ m, agentResultOfEvent (.errorEvent m) = { success := false, exitCode := 1 }) ∧
    (∀ ev, runAgent agentName (.spawned ev) = .ok (agentResultOfEvent ev)) :=
  ⟨rfl, fun c => rfl, fun m => rfl, fun ev => rfl⟩

end OpencodeFlow

